import Mathlib

/-!
Verification development for the voice-engine module of the grey_hat_ai
repository (`grey_hat_ai/voice_engine.py`).

The module is embedded shallowly:

* An audio chunk is modelled as the list of its int16 PCM bytes
  (`Chunk := List Nat`); the float32→int16 conversion done in the
  recording loop is outside the scope of the properties below, which only
  observe chunk identity and byte length.
* The mutable state of `_recording_loop` (`audio_buffer`, `silence_chunks`)
  becomes the structure `AccState`; one loop iteration becomes the pure
  step function `accStep`, and the loop a fold over the incoming chunks.
* External engines (webrtcvad, faster-whisper, elevenlabs) are parameters:
  a function returning `Option _`, where `none` models the engine raising
  an exception (every call in the source sits in a `try`/`except`).
* Fallible Python functions are given `Except VoiceError _` result types;
  a Python function that returns normally produces `Except.ok`.
-/

/-- One audio chunk, as the list of bytes of its int16 PCM samples. -/
abbrev Chunk := List Nat

/-- Raw audio returned by the synthesis engine. -/
abbrev Audio := List Nat

/-- Error taxonomy of the engine (used as the error type of fallible
operations; the source logs-and-returns in most places, which is modelled
as `Except.ok`). -/
inductive VoiceError where
  | configurationError
  | deviceError
  | invariantViolation
deriving DecidableEq

/-- The mutable segmentation state of `_recording_loop`: the open utterance
buffer (`audio_buffer`, a list of chunks) and the run of consecutive
non-speech chunks (`silence_chunks`). -/
structure AccState where
  audio_buffer : List Chunk
  silence_chunks : Nat
deriving DecidableEq

/-- The state at loop entry: empty buffer, zero silence counter. -/
def idleState : AccState := ⟨[], 0⟩

/-- `max_silence_chunks = int(silence_threshold / chunk_duration)`
with the default configuration `silence_threshold = 2.0` s and
`chunk_duration = 0.5` s: 4 chunks. -/
def max_silence_chunks : Nat := 4

/-- One iteration of the body of `_recording_loop` after classification:
a speech chunk is appended and resets the silence counter; a non-speech
chunk increments the counter and is appended only when the buffer is
non-empty; afterwards, if the buffer is non-empty and the counter has
reached the threshold, the buffer is emitted and the state reset. -/
def accStep (maxSilence : Nat) (s : AccState) (chunk : Chunk) (isSp : Bool) :
    AccState × Option (List Chunk) :=
  let s1 : AccState :=
    if isSp then
      { audio_buffer := s.audio_buffer ++ [chunk], silence_chunks := 0 }
    else
      { audio_buffer :=
          if s.audio_buffer = [] then s.audio_buffer
          else s.audio_buffer ++ [chunk],
        silence_chunks := s.silence_chunks + 1 }
  if s1.audio_buffer ≠ [] ∧ maxSilence ≤ s1.silence_chunks then
    ({ audio_buffer := [], silence_chunks := 0 }, some s1.audio_buffer)
  else
    (s1, none)

/-- Folding `accStep` over a classified chunk stream, collecting the
emitted utterance buffers in order. -/
def accRun (maxSilence : Nat) : AccState → List (Chunk × Bool) → AccState × List (List Chunk)
  | s, [] => (s, [])
  | s, cb :: rest =>
      let step := accStep maxSilence s cb.1 cb.2
      let r := accRun maxSilence step.1 rest
      match step.2 with
      | none => r
      | some buf => (r.1, buf :: r.2)

/-- The classified stream `[speech]*3 ++ [non-speech]*4 ++ [speech]*2 ++
[non-speech]*4`, with chunk `i` carrying the single byte `i` so chunks are
distinguishable. -/
def stream_3s_4n_2s_4n : List (Chunk × Bool) :=
  [([0], true), ([1], true), ([2], true),
   ([3], false), ([4], false), ([5], false), ([6], false),
   ([7], true), ([8], true),
   ([9], false), ([10], false), ([11], false), ([12], false)]

/-- The classified stream `[speech]*1 ++ [non-speech]*4`. -/
def stream_1s_4n : List (Chunk × Bool) :=
  [([0], true), ([1], false), ([2], false), ([3], false), ([4], false)]

/-- The number of bytes of one 30 ms VAD frame: `frame_size * 2` in
`_is_speech`, where `frame_size = int(sample_rate * 30 / 1000)` samples
and each int16 sample is 2 bytes. -/
def frame_bytes (sample_rate : Nat) : Nat :=
  sample_rate * 30 / 1000 * 2

/-- `_is_speech`: when no VAD is configured, every chunk counts as speech;
otherwise a chunk shorter than one 30 ms frame is non-speech, and an
adequate chunk is truncated to its first 30 ms frame and handed to the
classifier `v` (`v _ = none` models webrtcvad raising, in which case the
`except` branch assumes speech). -/
def is_speech (vad : Option (Chunk → Option Bool)) (sample_rate : Nat)
    (audio_bytes : Chunk) : Bool :=
  match vad with
  | none => true
  | some v =>
      if audio_bytes.length < frame_bytes sample_rate then false
      else
        match v (audio_bytes.take (frame_bytes sample_rate)) with
        | some b => b
        | none => true

/-- `_transcribe_audio`: the whisper engine `w` returns the texts of the
recognized segments (`none` models the engine raising; `whisper = none`
models the model being unavailable; both yield the empty string). On
success the segment texts are joined with single spaces and stripped. -/
def transcribe_audio (whisper : Option (Chunk → Option (List String)))
    (audio_data : Chunk) : String :=
  match whisper with
  | none => ""
  | some w =>
      match w audio_data with
      | none => ""
      | some segs => (String.intercalate " " segs).trim

/-- `_process_audio_buffer`: an empty buffer returns immediately;
otherwise the chunks are concatenated, transcribed, and a speech-detected
event (the non-empty stripped text) is produced when the callback `cb` is
wired. Every internal exception is caught, so no path produces
`Except.error`; the `Except` result type records that the source signals
no error. `Except.ok none` = returned without an event. -/
def process_audio_buffer (whisper : Option (Chunk → Option (List String)))
    (cb : Bool) (audio_buffer : List Chunk) : Except VoiceError (Option String) :=
  match audio_buffer with
  | [] => Except.ok none
  | _ :: _ =>
      let audio_data := audio_buffer.flatten
      let text := transcribe_audio whisper audio_data
      if text ≠ "" ∧ cb = true then Except.ok (some text)
      else Except.ok none

/-- `_recording_loop` over a list of delivered chunks: classify, feed the
accumulator, and on an emitted buffer run `_process_audio_buffer`,
collecting the detected-speech events. An `Except.error` from processing
would hit the loop's outer `except ...: break` (never reached, since
processing never errors). -/
def recording_loop (maxSilence : Nat) (sample_rate : Nat)
    (vad : Option (Chunk → Option Bool))
    (whisper : Option (Chunk → Option (List String))) (cb : Bool) :
    AccState → List Chunk → AccState × List String
  | s, [] => (s, [])
  | s, chunk :: rest =>
      let sp := is_speech vad sample_rate chunk
      let step := accStep maxSilence s chunk sp
      match step.2 with
      | none => recording_loop maxSilence sample_rate vad whisper cb step.1 rest
      | some buf =>
          match process_audio_buffer whisper cb buf with
          | Except.error _ => (step.1, [])
          | Except.ok none =>
              recording_loop maxSilence sample_rate vad whisper cb step.1 rest
          | Except.ok (some t) =>
              let r := recording_loop maxSilence sample_rate vad whisper cb step.1 rest
              (r.1, t :: r.2)

/-- `_initialize_components` from the source: loads the Whisper model when
the faster_whisper package is present and constructs the VAD when webrtcvad
is present; the whole body is wrapped in a `try`/`except Exception` that
only logs, so the function never raises, and no validation of the audio
shape (sample rate, chunk duration) is performed anywhere in it. Returns
(whisper loaded, vad constructed). -/
def init_components (whisper_pkg vad_pkg : Bool) (_model_size : String)
    (_vad_aggressiveness : Nat) : Except VoiceError (Bool × Bool) :=
  Except.ok (whisper_pkg, vad_pkg)

/-- The TTS cache `self.tts_cache`, as its insertion-ordered list of
(cache_key, audio) entries; a Python dict preserves insertion order, and
the source only ever inserts keys that are not present. -/
abbrev Cache := List (String × Audio)

/-- First-match association lookup, modelling `cache_key in self.tts_cache`
and `self.tts_cache[cache_key]`. -/
def cacheLookup : Cache → String → Option Audio
  | [], _ => none
  | e :: rest, key => if e.1 = key then some e.2 else cacheLookup rest key

/-- The cache key `f"{voice_id}:{hash(text)}"`, with the Python string
hash as a parameter. -/
def cache_key (hash : String → Int) (voice_id : String) (text : String) : String :=
  voice_id ++ ":" ++ toString (hash text)

/-- `text_to_speech`: returns `none` when elevenlabs is not configured;
otherwise resolves the voice id (argument or config default), returns a
cached entry on hit, and on miss calls the external engine `gen`
(`none` models `generate` raising, caught and returned as `None`). A
successful synthesis is appended to the cache; if the cache then holds
more than 50 entries, the 10 oldest (first-inserted) entries are
removed. -/
def text_to_speech (configured : Bool) (hash : String → Int)
    (gen : String → String → Option Audio) (default_voice : String)
    (cache : Cache) (text : String) (voice_arg : Option String) :
    Cache × Option Audio :=
  if configured = false then (cache, none)
  else
    let voice_id := voice_arg.getD default_voice
    let key := cache_key hash voice_id text
    match cacheLookup cache key with
    | some audio => (cache, some audio)
    | none =>
        match gen text voice_id with
        | none => (cache, none)
        | some audio =>
            let c1 := cache ++ [(key, audio)]
            let c2 := if 50 < c1.length then c1.drop 10 else c1
            (c2, some audio)

/-- A sequence of `text_to_speech` calls (pairs of text and optional voice
id) threaded through the cache, as a caller performs them one after
another; the returned audio of each call is discarded. -/
def runCalls (configured : Bool) (hash : String → Int)
    (gen : String → String → Option Audio) (default_voice : String) :
    Cache → List (String × Option String) → Cache
  | cache, [] => cache
  | cache, c :: rest =>
      runCalls configured hash gen default_voice
        (text_to_speech configured hash gen default_voice cache c.1 c.2).1 rest

/-- The cache key a call (text, optional voice id) resolves to. -/
def call_key (hash : String → Int) (default_voice : String)
    (c : String × Option String) : String :=
  cache_key hash (c.2.getD default_voice) c.1

/-- The cache entry a successful call leaves behind: its key and the bytes
the engine returns for it. -/
def call_entry (hash : String → Int) (gen : String → String → Option Audio)
    (default_voice : String) (c : String × Option String) : String × Audio :=
  (call_key hash default_voice c, (gen c.1 (c.2.getD default_voice)).getD [])

/-- Events observable by the consumer (callbacks wired into the engine). -/
inductive VEvent where
  | listeningStarted
  | listeningStopped
  | speechDetected (text : String)
deriving DecidableEq

/-- Result of a `start_listening` call: the listening flag afterwards,
whether a new background recording thread was spawned, and the events
fired by the call (the callbacks are modelled as wired). -/
structure StartResult where
  is_listening : Bool
  thread_started : Bool
  events : List VEvent
deriving DecidableEq

/-- `start_listening`: a no-op when already listening; also returns
without starting when the whisper model or the audio stack (sounddevice /
numpy) is unavailable; otherwise sets the flag, spawns the recording
thread and fires the listening-started callback. -/
def start_listening (whisper_available : Bool) (audio_available : Bool)
    (is_listening : Bool) : StartResult :=
  if is_listening then ⟨is_listening, false, []⟩
  else if whisper_available = false then ⟨is_listening, false, []⟩
  else if audio_available = false then ⟨is_listening, false, []⟩
  else ⟨true, true, [VEvent.listeningStarted]⟩

/-- `stop_listening`: a no-op when not listening; otherwise clears the
flag, joins the recording thread and fires the listening-stopped
callback. Returns the flag afterwards and the events fired. -/
def stop_listening (is_listening : Bool) : Bool × List VEvent :=
  if is_listening = false then (is_listening, [])
  else (false, [VEvent.listeningStopped])

/-- C1: with threshold 4 (chunk_duration 0.5 s, silence_threshold 2.0 s),
the stream `[speech]*3 ++ [non-speech]*4 ++ [speech]*2 ++ [non-speech]*4`
emits exactly the two utterances `[0..6]` (7 chunks: 3 speech + 4 trailing
non-speech) and `[7..12]` (6 chunks), ending idle; and `[speech]*1 ++
[non-speech]*4` emits exactly one utterance of 5 chunks, after which the
accumulator is back in the idle state (empty buffer, zero counter). -/
theorem C1_segment_scenarios :
    accRun max_silence_chunks idleState stream_3s_4n_2s_4n
      = (idleState,
         [[[0], [1], [2], [3], [4], [5], [6]],
          [[7], [8], [9], [10], [11], [12]]]) ∧
    accRun max_silence_chunks idleState stream_1s_4n
      = (idleState, [[[0], [1], [2], [3], [4]]]) := by
  constructor
  · rfl
  · rfl

/-- C8: starting while already listening is a no-op (flag unchanged, no
second recording thread, no duplicate listening-started event), and
stopping while not listening is a no-op (flag unchanged, no duplicate
listening-stopped event), whatever the availability of the whisper model
and the audio stack. -/
theorem C8_start_stop_idempotent :
    ∀ (w a : Bool),
      start_listening w a true = ⟨true, false, []⟩ ∧
      stop_listening false = (false, []) := by
  intro w a
  exact ⟨rfl, rfl⟩

/-- C10: with a VAD classifier configured, the classification of a chunk
depends only on its first 30 ms frame of int16 bytes (two sufficiently
long chunks agreeing on that prefix classify identically), and a chunk
shorter than one 30 ms frame is classified as non-speech. -/
theorem C10_classification_uses_first_frame (v : Chunk → Option Bool) (sr : Nat)
    (c1 c2 cshort : Chunk)
    (hpre : c1.take (frame_bytes sr) = c2.take (frame_bytes sr))
    (h1 : ¬ c1.length < frame_bytes sr) (h2 : ¬ c2.length < frame_bytes sr)
    (hshort : cshort.length < frame_bytes sr) :
    is_speech (some v) sr c1 = is_speech (some v) sr c2 ∧
    is_speech (some v) sr cshort = false := by
  constructor
  · simp only [is_speech, if_neg h1, if_neg h2, hpre]
  · simp only [is_speech, if_pos hshort]

/-- Witness for C10 at sample rate 100 (frame = 3 samples = 6 bytes):
a 6-byte chunk and a 7-byte chunk sharing the first 6 bytes classify
identically, and the empty chunk is non-speech. -/
theorem C10_witness :
    (([0, 0, 0, 0, 0, 0] : Chunk).take (frame_bytes 100)
        = ([0, 0, 0, 0, 0, 0, 9] : Chunk).take (frame_bytes 100)) ∧
    is_speech (some fun b => some (b.length == 6)) 100 [0, 0, 0, 0, 0, 0]
      = is_speech (some fun b => some (b.length == 6)) 100 [0, 0, 0, 0, 0, 0, 9] ∧
    is_speech (some fun b => some (b.length == 6)) 100 [] = false :=
  ⟨by decide,
   (C10_classification_uses_first_frame (fun b => some (b.length == 6)) 100
      [0, 0, 0, 0, 0, 0] [0, 0, 0, 0, 0, 0, 9] []
      (by decide) (by decide) (by decide) (by decide)).1,
   (C10_classification_uses_first_frame (fun b => some (b.length == 6)) 100
      [0, 0, 0, 0, 0, 0] [0, 0, 0, 0, 0, 0, 9] []
      (by decide) (by decide) (by decide) (by decide)).2⟩

/-- C6 counterexample: handing an empty buffer to `_process_audio_buffer`
is NOT rejected with an internal invariant violation: the function simply
returns (`Except.ok none`: no event, no error, no log), i.e. a silent
ignore — refuting the claim that an empty-bodied utterance emission is
met with a loud programming-error signal. -/
theorem C6_counterexample :
    process_audio_buffer (some fun _ => some ["hello"]) true [] = Except.ok none ∧
    process_audio_buffer (some fun _ => some ["hello"]) true []
      ≠ Except.error VoiceError.invariantViolation := by
  refine ⟨rfl, fun h => ?_⟩
  exact Except.noConfusion h

/-- C6 amended: an empty buffer handed to `_process_audio_buffer` is
silently ignored — the function returns immediately with no event and no
error, for every recognition engine and callback wiring. -/
theorem C6_empty_buffer_silently_ignored :
    ∀ (whisper : Option (Chunk → Option (List String))) (cb : Bool),
      process_audio_buffer whisper cb [] = Except.ok none := by
  intro whisper cb
  rfl

/-- C9 counterexample: with the default configuration (sample_rate 16000,
chunk_duration 0.5 s) every captured chunk is 8000 samples = 16000 bytes =
500 ms of audio — not one of the supported classifier shapes
(10/20/30 ms) — yet startup raises no configuration error
(`_initialize_components` performs no shape validation and catches every
exception), and shape handling happens per frame during classification:
a 16000-byte chunk is silently truncated to its first 960 bytes (the
classifier observes exactly 960 bytes of it), and a 1-byte chunk is
skipped per frame as non-speech. This refutes the claim that unsupported
shapes are rejected at startup with no per-frame shape handling. -/
theorem C9_counterexample :
    init_components true true "base" 2 = Except.ok (true, true) ∧
    is_speech (some fun b => some (b.length == 960)) 16000 (List.replicate 16000 0) = true ∧
    is_speech (some fun b => some (b.length == 960)) 16000 [0] = false := by
  have hfb : frame_bytes 16000 = 960 := by norm_num [frame_bytes]
  have hlen : ¬ (List.replicate 16000 (0 : Nat)).length < frame_bytes 16000 := by
    rw [List.length_replicate, hfb]
    omega
  refine ⟨rfl, ?_, by decide⟩
  simp only [is_speech, if_neg hlen, hfb, List.take_replicate, List.length_replicate]
  decide

/-- C9 amended: no configuration error is raised at startup for
unsupported frame shapes — initialization always returns successfully,
with no shape validation at all — and shape handling happens per frame
inside `_is_speech`: a chunk shorter than one 30 ms frame is classified
as non-speech, and a sufficiently long chunk is truncated to its first
30 ms frame before the classifier is invoked (classifier exceptions
defaulting to speech). -/
theorem C9_no_startup_shape_validation (wp vp : Bool) (ms : String) (ag sr : Nat)
    (v : Chunk → Option Bool) (chunk : Chunk) :
    init_components wp vp ms ag = Except.ok (wp, vp) ∧
    (chunk.length < frame_bytes sr → is_speech (some v) sr chunk = false) ∧
    (frame_bytes sr ≤ chunk.length →
      is_speech (some v) sr chunk = (v (chunk.take (frame_bytes sr))).getD true) := by
  refine ⟨rfl, fun h => by simp only [is_speech, if_pos h], fun h => ?_⟩
  have h2 : ¬ chunk.length < frame_bytes sr := not_lt.mpr h
  simp only [is_speech, if_neg h2]
  cases v (chunk.take (frame_bytes sr)) <;> rfl

/-- Witness for the amended C9: a 1-byte chunk at 16 kHz is short and
classified non-speech; a 16000-byte chunk is long enough and classified
by the classifier applied to its first 960 bytes. -/
theorem C9_amended_witness :
    ([0] : Chunk).length < frame_bytes 16000 ∧
    is_speech (some fun b => some (b.length == 960)) 16000 [0] = false ∧
    frame_bytes 16000 ≤ (List.replicate 16000 (0 : Nat)).length ∧
    is_speech (some fun b => some (b.length == 960)) 16000 (List.replicate 16000 0)
      = ((fun (b : Chunk) => some (b.length == 960))
           ((List.replicate 16000 (0 : Nat)).take (frame_bytes 16000))).getD true :=
  ⟨by decide,
   (C9_no_startup_shape_validation true true "base" 2 16000
      (fun b => some (b.length == 960)) [0]).2.1 (by decide),
   by rw [List.length_replicate]; norm_num [frame_bytes],
   (C9_no_startup_shape_validation true true "base" 2 16000
      (fun b => some (b.length == 960)) (List.replicate 16000 0)).2.2
      (by rw [List.length_replicate]; norm_num [frame_bytes])⟩

/-- A speech chunk appends to the buffer, resets the silence counter and
(for a positive threshold) never triggers an emission. -/
theorem accStep_speech (maxS : Nat) (hM : 0 < maxS) (s : AccState) (c : Chunk) :
    accStep maxS s c true
      = ({ audio_buffer := s.audio_buffer ++ [c], silence_chunks := 0 }, none) := by
  have h : ¬ (s.audio_buffer ++ [c] ≠ [] ∧ maxS ≤ 0) := by
    rintro ⟨-, h2⟩
    omega
  simp only [accStep, if_true]
  rw [if_neg]
  exact h

/-- C5: with no VAD classifier configured, `_is_speech` classifies every
chunk as speech; consequently, for any positive silence threshold, a
stream of chunks fed while the classifier is unavailable never reaches a
silence boundary: the accumulator emits no utterance at all, so the
stream is never split into multiple utterances. -/
theorem C5_fail_open_no_split (sr maxS : Nat) (hM : 0 < maxS) :
    (∀ c, is_speech none sr c = true) ∧
    (∀ (s : AccState) (frames : List Chunk),
        (accRun maxS s (frames.map fun c => (c, is_speech none sr c))).2 = []) := by
  refine ⟨fun c => rfl, ?_⟩
  intro s frames
  induction frames generalizing s with
  | nil => rfl
  | cons c rest ih =>
      show (accRun maxS s ((c, is_speech none sr c) :: rest.map fun c => (c, is_speech none sr c))).2 = []
      have hc : is_speech none sr c = true := rfl
      simp only [accRun, hc, accStep_speech maxS hM]
      exact ih _

/-- Witness for C5: threshold 4 is positive, and two chunks fed with the
classifier unavailable produce no utterance. -/
theorem C5_witness :
    0 < 4 ∧
    (accRun 4 idleState ([[5], [6]].map fun c => (c, is_speech none 16000 c))).2 = [] :=
  ⟨by decide, (C5_fail_open_no_split 16000 4 (by decide)).2 idleState [[5], [6]]⟩

/-- When every engine output is empty, `_process_audio_buffer` returns
without producing an event and without an error, for any buffer. -/
theorem process_ok_none (whisper : Option (Chunk → Option (List String))) (cb : Bool)
    (hT : ∀ a, transcribe_audio whisper a = "") (buf : List Chunk) :
    process_audio_buffer whisper cb buf = Except.ok none := by
  cases buf with
  | nil => rfl
  | cons c cs =>
      simp only [process_audio_buffer, hT]
      rw [if_neg]
      rintro ⟨h1, -⟩
      exact h1 rfl

/-- When transcription always yields the empty string, the recording loop
consumes its whole chunk stream (never breaking out), produces no
speech-detected event, and threads the accumulator state exactly as the
pure accumulator does. -/
theorem recording_loop_no_events (maxS sr : Nat) (vad : Option (Chunk → Option Bool))
    (whisper : Option (Chunk → Option (List String))) (cb : Bool)
    (hT : ∀ a, transcribe_audio whisper a = "") :
    ∀ (frames : List Chunk) (s : AccState),
      recording_loop maxS sr vad whisper cb s frames
        = ((accRun maxS s (frames.map fun c => (c, is_speech vad sr c))).1, []) := by
  intro frames
  induction frames with
  | nil => intro s; rfl
  | cons c rest ih =>
      intro s
      simp only [recording_loop, accRun, List.map_cons,
        process_ok_none whisper cb hT]
      cases hstep : (accStep maxS s c (is_speech vad sr c)).2 with
      | none => exact ih _
      | some buf => simpa using ih _

/-- C4: when the recognition engine fails — the whisper model is
unavailable (`none`) or every engine call raises internally (`w _ = none`,
caught by the bridge) — transcription yields the empty result, processing
an utterance buffer produces no speech-detected event and no error, and
the recording loop keeps running: it consumes its whole chunk stream,
threads the accumulator state exactly as the pure accumulator does, and
emits no event at all. -/
theorem C4_recognition_failure_recovered (w : Chunk → Option (List String)) (cb : Bool)
    (hW : ∀ a, w a = none) :
    (∀ a, transcribe_audio (some w) a = "" ∧ transcribe_audio none a = "") ∧
    (∀ buf, process_audio_buffer (some w) cb buf = Except.ok none ∧
            process_audio_buffer none cb buf = Except.ok none) ∧
    (∀ (maxS sr : Nat) (vad : Option (Chunk → Option Bool)) (s : AccState)
        (frames : List Chunk),
      recording_loop maxS sr vad (some w) cb s frames
        = ((accRun maxS s (frames.map fun c => (c, is_speech vad sr c))).1, []) ∧
      recording_loop maxS sr vad none cb s frames
        = ((accRun maxS s (frames.map fun c => (c, is_speech vad sr c))).1, [])) := by
  have hsome : ∀ a, transcribe_audio (some w) a = "" := by
    intro a
    simp [transcribe_audio, hW a]
  have hnone : ∀ a, transcribe_audio none a = "" := fun a => rfl
  refine ⟨fun a => ⟨hsome a, hnone a⟩, fun buf => ⟨?_, ?_⟩, fun maxS sr vad s frames => ⟨?_, ?_⟩⟩
  · exact process_ok_none (some w) cb hsome buf
  · exact process_ok_none none cb hnone buf
  · exact recording_loop_no_events maxS sr vad (some w) cb hsome frames s
  · exact recording_loop_no_events maxS sr vad none cb hnone frames s

/-- Witness for C4: a concrete always-raising engine, fed two chunks from
the idle state, lets the loop run to completion with no event. -/
theorem C4_witness :
    (∀ a : Chunk, (fun _ : Chunk => (none : Option (List String))) a = none) ∧
    recording_loop 4 16000 none (some fun _ => none) true idleState [[0], [1]]
      = ((accRun 4 idleState ([[0], [1]].map fun c => (c, is_speech none 16000 c))).1, []) :=
  ⟨fun _ => rfl,
   ((C4_recognition_failure_recovered (fun _ => none) true (fun _ => rfl)).2.2
      4 16000 none idleState [[0], [1]]).1⟩

/-- Lookup misses exactly when the key is not among the stored keys. -/
theorem cacheLookup_eq_none : ∀ (cache : Cache) (k : String),
    cacheLookup cache k = none ↔ k ∉ cache.map Prod.fst := by
  intro cache k
  induction cache with
  | nil => simp [cacheLookup]
  | cons e rest ih =>
      simp only [cacheLookup, List.map_cons, List.mem_cons]
      by_cases h : e.1 = k
      · subst h
        simp
      · have h2 : ¬ k = e.1 := fun hk => h hk.symm
        simp [h, h2, ih]

/-- A lookup that misses the front part of an appended cache falls through
to the back part. -/
theorem cacheLookup_append_right : ∀ (c1 : Cache) (k : String),
    cacheLookup c1 k = none → ∀ c2 : Cache,
      cacheLookup (c1 ++ c2) k = cacheLookup c2 k := by
  intro c1 k h c2
  induction c1 with
  | nil => rfl
  | cons e rest ih =>
      simp only [cacheLookup, List.cons_append] at h ⊢
      by_cases he : e.1 = k
      · rw [if_pos he] at h
        exact absurd h (by simp)
      · rw [if_neg he] at h ⊢
        exact ih h

/-- Dropping entries cannot make a missing key present. -/
theorem cacheLookup_drop_none : ∀ (cache : Cache) (k : String) (n : Nat),
    cacheLookup cache k = none → cacheLookup (cache.drop n) k = none := by
  intro cache
  induction cache with
  | nil =>
      intro k n h
      rw [List.drop_nil]
      rfl
  | cons e rest ih =>
      intro k n h
      cases n with
      | zero => exact h
      | succ m =>
          rw [List.drop_succ_cons]
          apply ih
          simp only [cacheLookup] at h
          by_cases he : e.1 = k
          · rw [if_pos he] at h
            exact absurd h (by simp)
          · rwa [if_neg he] at h

/-- A `text_to_speech` cache hit returns the cached bytes and leaves the
cache untouched. -/
theorem text_to_speech_hit {cache : Cache} {hash : String → Int}
    {gen : String → String → Option Audio} {dv t : String} {v : Option String}
    {a : Audio}
    (hhit : cacheLookup cache (cache_key hash (v.getD dv) t) = some a) :
    text_to_speech true hash gen dv cache t v = (cache, some a) := by
  simp [text_to_speech, hhit]

/-- A miss on which the engine fails returns `none` and leaves the cache
untouched. -/
theorem text_to_speech_fail {cache : Cache} {hash : String → Int}
    {gen : String → String → Option Audio} {dv t : String} {v : Option String}
    (hmiss : cacheLookup cache (cache_key hash (v.getD dv) t) = none)
    (hg : gen t (v.getD dv) = none) :
    text_to_speech true hash gen dv cache t v = (cache, none) := by
  simp [text_to_speech, hmiss, hg]

/-- A successful miss on a cache below capacity appends the new entry and
evicts nothing. -/
theorem text_to_speech_miss_insert {cache : Cache} {hash : String → Int}
    {gen : String → String → Option Audio} {dv t : String} {v : Option String}
    {a : Audio}
    (hmiss : cacheLookup cache (cache_key hash (v.getD dv) t) = none)
    (hg : gen t (v.getD dv) = some a)
    (hlen : cache.length < 50) :
    text_to_speech true hash gen dv cache t v
      = (cache ++ [(cache_key hash (v.getD dv) t, a)], some a) := by
  simp [text_to_speech, hmiss, hg]
  intro h
  exact absurd h (by omega)

/-- A successful miss on a full cache appends the new entry and then drops
the 10 oldest entries. -/
theorem text_to_speech_miss_evict {cache : Cache} {hash : String → Int}
    {gen : String → String → Option Audio} {dv t : String} {v : Option String}
    {a : Audio}
    (hmiss : cacheLookup cache (cache_key hash (v.getD dv) t) = none)
    (hg : gen t (v.getD dv) = some a)
    (hlen : 50 ≤ cache.length) :
    text_to_speech true hash gen dv cache t v
      = ((cache ++ [(cache_key hash (v.getD dv) t, a)]).drop 10, some a) := by
  simp [text_to_speech, hmiss, hg]
  intro h
  exact absurd h (by omega)

/-- Any single call keeps a within-capacity cache within capacity, hence
so does any sequence of calls. -/
theorem text_to_speech_length_le {cache : Cache} (h : cache.length ≤ 50)
    (configured : Bool) (hash : String → Int)
    (gen : String → String → Option Audio) (dv t : String) (v : Option String) :
    (text_to_speech configured hash gen dv cache t v).1.length ≤ 50 := by
  cases configured with
  | false => simpa [text_to_speech] using h
  | true =>
      cases hl : cacheLookup cache (cache_key hash (v.getD dv) t) with
      | some a => simpa [text_to_speech_hit hl] using h
      | none =>
          cases hg : gen t (v.getD dv) with
          | none => simpa [text_to_speech_fail hl hg] using h
          | some a =>
              by_cases hlen : cache.length < 50
              · rw [text_to_speech_miss_insert hl hg hlen]
                simp only [List.length_append, List.length_cons, List.length_nil]
                omega
              · rw [text_to_speech_miss_evict hl hg (by omega)]
                simp only [List.length_drop, List.length_append, List.length_cons,
                  List.length_nil]
                omega

/-- The cache stays within capacity across every sequence of calls. -/
theorem runCalls_length_le (configured : Bool) (hash : String → Int)
    (gen : String → String → Option Audio) (dv : String) :
    ∀ (calls : List (String × Option String)) (cache : Cache),
      cache.length ≤ 50 →
      (runCalls configured hash gen dv cache calls).length ≤ 50 := by
  intro calls
  induction calls with
  | nil => intro cache h; exact h
  | cons c rest ih =>
      intro cache h
      exact ih _ (text_to_speech_length_le h configured hash gen dv c.1 c.2)

/-- Running a sequence of calls splits across list append. -/
theorem runCalls_append (configured : Bool) (hash : String → Int)
    (gen : String → String → Option Audio) (dv : String) :
    ∀ (xs ys : List (String × Option String)) (cache : Cache),
      runCalls configured hash gen dv cache (xs ++ ys)
        = runCalls configured hash gen dv (runCalls configured hash gen dv cache xs) ys := by
  intro xs
  induction xs with
  | nil => intro ys cache; rfl
  | cons x xs ih => intro ys cache; exact ih ys _

/-- Successful calls with pairwise-distinct keys all fresh to the cache,
few enough to stay within capacity, append their entries in call order
with no eviction. -/
theorem runCalls_fresh (hash : String → Int) (gen : String → String → Option Audio)
    (dv : String) :
    ∀ (calls : List (String × Option String)) (cache : Cache),
      cache.length + calls.length ≤ 50 →
      (calls.map (call_key hash dv)).Nodup →
      (∀ c ∈ calls, call_key hash dv c ∉ cache.map Prod.fst) →
      (∀ c ∈ calls, (gen c.1 (c.2.getD dv)).isSome = true) →
      runCalls true hash gen dv cache calls
        = cache ++ calls.map (call_entry hash gen dv) := by
  intro calls
  induction calls with
  | nil =>
      intro cache _ _ _ _
      simp [runCalls]
  | cons c rest ih =>
      intro cache hlen hnd hfresh hok
      obtain ⟨a, ha⟩ := Option.isSome_iff_exists.mp (hok c (List.mem_cons_self c rest))
      have hmiss : cacheLookup cache (cache_key hash (c.2.getD dv) c.1) = none :=
        (cacheLookup_eq_none cache _).mpr (hfresh c (List.mem_cons_self c rest))
      have hlt : cache.length < 50 := by
        simp only [List.length_cons] at hlen
        omega
      have hentry : call_entry hash gen dv c = (call_key hash dv c, a) := by
        simp [call_entry, call_key, ha]
      rw [List.map_cons] at hnd
      have hhead := (List.nodup_cons.mp hnd).1
      have htail := (List.nodup_cons.mp hnd).2
      have hrest_fresh : ∀ x ∈ rest,
          call_key hash dv x ∉ (cache ++ [(call_key hash dv c, a)]).map Prod.fst := by
        intro x hx
        rw [List.map_append]
        simp only [List.map_cons, List.map_nil, List.mem_append,
          List.mem_singleton]
        rintro (hin | hk)
        · exact hfresh x (List.mem_cons_of_mem c hx) hin
        · have hmem : call_key hash dv x ∈ rest.map (call_key hash dv) :=
            List.mem_map_of_mem _ hx
          rw [hk] at hmem
          exact hhead hmem
      calc runCalls true hash gen dv cache (c :: rest)
          = runCalls true hash gen dv (cache ++ [(call_key hash dv c, a)]) rest := by
            show runCalls true hash gen dv
                (text_to_speech true hash gen dv cache c.1 c.2).1 rest = _
            rw [text_to_speech_miss_insert hmiss ha hlt]
            rfl
        _ = (cache ++ [(call_key hash dv c, a)]) ++ rest.map (call_entry hash gen dv) := by
            apply ih
            · simp only [List.length_append, List.length_cons, List.length_nil]
              simp only [List.length_cons] at hlen
              omega
            · exact htail
            · exact hrest_fresh
            · intro x hx
              exact hok x (List.mem_cons_of_mem c hx)
        _ = cache ++ (c :: rest).map (call_entry hash gen dv) := by
            rw [List.map_cons, hentry, List.append_assoc, List.singleton_append]

/-- C2: starting from the empty cache, (a) after any sequence of
`text_to_speech` calls the cache holds at most 50 entries; (b) after 51
calls whose keys are pairwise distinct and whose syntheses all succeed,
the cache equals all 51 entries in insertion order with exactly the 10
oldest removed, and in particular holds at most 50 entries. -/
theorem C2_cache_bound_and_eviction (hash : String → Int)
    (gen : String → String → Option Audio) (dv : String)
    (calls calls51 : List (String × Option String))
    (h51 : calls51.length = 51)
    (hnd : (calls51.map (call_key hash dv)).Nodup)
    (hok : ∀ c ∈ calls51, (gen c.1 (c.2.getD dv)).isSome = true) :
    (runCalls true hash gen dv [] calls).length ≤ 50 ∧
    runCalls true hash gen dv [] calls51
      = (calls51.map (call_entry hash gen dv)).drop 10 ∧
    (runCalls true hash gen dv [] calls51).length ≤ 50 := by
  have hpart1 := runCalls_length_le true hash gen dv calls [] (by simp)
  have hdl : (calls51.drop 50).length = 1 := by
    rw [List.length_drop, h51]
  obtain ⟨c, hc⟩ := List.length_eq_one.mp hdl
  have hsplit : calls51 = calls51.take 50 ++ [c] := by
    conv_lhs => rw [← List.take_append_drop 50 calls51]
    rw [hc]
  have htlen : (calls51.take 50).length = 50 := by
    simp [List.length_take, h51]
  have hndT : ((calls51.take 50).map (call_key hash dv)).Nodup := by
    rw [List.map_take]
    exact (List.take_sublist 50 _).nodup hnd
  have hT : runCalls true hash gen dv [] (calls51.take 50)
      = (calls51.take 50).map (call_entry hash gen dv) := by
    have hres := runCalls_fresh hash gen dv (calls51.take 50) []
      (by rw [htlen]; simp) hndT (by intro x hx; simp)
      (fun x hx => hok x ((List.take_sublist 50 _).subset hx))
    simpa using hres
  have hcmem : c ∈ calls51 := by
    rw [hsplit]
    exact List.mem_append_right _ (List.mem_singleton_self c)
  obtain ⟨a, ha⟩ := Option.isSome_iff_exists.mp (hok c hcmem)
  have hnd2 := hnd
  rw [hsplit, List.map_append, List.map_cons, List.map_nil] at hnd2
  have hknotin : call_key hash dv c ∉ (calls51.take 50).map (call_key hash dv) := by
    intro hmem
    exact (List.nodup_append.mp hnd2).2.2 hmem (List.mem_singleton_self _)
  have hmiss : cacheLookup ((calls51.take 50).map (call_entry hash gen dv))
      (cache_key hash (c.2.getD dv) c.1) = none := by
    apply (cacheLookup_eq_none _ _).mpr
    rw [List.map_map]
    exact hknotin
  have hfinal : runCalls true hash gen dv [] calls51
      = ((calls51.take 50).map (call_entry hash gen dv)
          ++ [(call_key hash dv c, a)]).drop 10 := by
    conv_lhs => rw [hsplit]
    rw [runCalls_append, hT]
    show (text_to_speech true hash gen dv
        ((calls51.take 50).map (call_entry hash gen dv)) c.1 c.2).1 = _
    rw [text_to_speech_miss_evict hmiss ha (by rw [List.length_map, htlen])]
    rfl
  have hmap51 : calls51.map (call_entry hash gen dv)
      = (calls51.take 50).map (call_entry hash gen dv) ++ [(call_key hash dv c, a)] := by
    conv_lhs => rw [hsplit]
    rw [List.map_append]
    congr 1
    simp [call_entry, ha]
  refine ⟨hpart1, ?_, ?_⟩
  · rw [hfinal, hmap51]
  · rw [hfinal, List.length_drop, List.length_append, List.length_map, htlen]
    simp

/-- Witness for C2: 51 concrete calls with distinct voice ids (hence
distinct cache keys) and an always-succeeding engine leave the cache equal
to the 51 entries with the 10 oldest dropped. -/
theorem C2_witness :
    ((List.range 51).map fun i => (("x" : String), some (toString i))).length = 51 ∧
    (((List.range 51).map fun i => (("x" : String), some (toString i))).map
        (call_key (fun _ => (0 : Int)) "v")).Nodup ∧
    runCalls true (fun _ => (0 : Int)) (fun _ _ => some [1]) "v" []
        ((List.range 51).map fun i => (("x" : String), some (toString i)))
      = (((List.range 51).map fun i => (("x" : String), some (toString i))).map
          (call_entry (fun _ => (0 : Int)) (fun _ _ => some [1]) "v")).drop 10 :=
  ⟨by decide, by decide,
   (C2_cache_bound_and_eviction (fun _ => (0 : Int)) (fun _ _ => some [1]) "v" []
      ((List.range 51).map fun i => (("x" : String), some (toString i)))
      (by decide) (by decide) (fun c _ => rfl)).2.1⟩

/-- C3: if a `text_to_speech` call returns audio bytes, an immediately
following call with the same text and voice argument on the resulting
cache returns the very same bytes and leaves the cache unchanged, for
EVERY synthesis engine — in particular for one that now fails — i.e. the
second call is a cache hit that never consults the engine. -/
theorem C3_cache_round_trip (configured : Bool) (hash : String → Int)
    (gen : String → String → Option Audio) (dv : String) (cache : Cache)
    (t : String) (v : Option String) (cache2 : Cache) (audio : Audio)
    (h : text_to_speech configured hash gen dv cache t v = (cache2, some audio)) :
    ∀ gen2 : String → String → Option Audio,
      text_to_speech configured hash gen2 dv cache2 t v = (cache2, some audio) := by
  intro gen2
  cases configured with
  | false =>
      exfalso
      simp [text_to_speech] at h
  | true =>
      cases hl : cacheLookup cache (cache_key hash (v.getD dv) t) with
      | some a =>
          rw [text_to_speech_hit hl] at h
          injection h with h1 h2
          injection h2 with h2
          subst h1
          subst h2
          exact text_to_speech_hit hl
      | none =>
          cases hg : gen t (v.getD dv) with
          | none =>
              rw [text_to_speech_fail hl hg] at h
              injection h with h1 h2
              exact absurd h2 (by simp)
          | some a =>
              by_cases hlen : cache.length < 50
              · rw [text_to_speech_miss_insert hl hg hlen] at h
                injection h with h1 h2
                injection h2 with h2
                subst h2
                have hl2 : cacheLookup cache2 (cache_key hash (v.getD dv) t) = some a := by
                  rw [← h1, cacheLookup_append_right cache _ hl]
                  simp [cacheLookup]
                exact text_to_speech_hit hl2
              · rw [text_to_speech_miss_evict hl hg (by omega)] at h
                injection h with h1 h2
                injection h2 with h2
                subst h2
                have hl2 : cacheLookup cache2 (cache_key hash (v.getD dv) t) = some a := by
                  rw [← h1,
                    List.drop_append_of_le_length (by omega),
                    cacheLookup_append_right _ _ (cacheLookup_drop_none cache _ 10 hl)]
                  simp [cacheLookup]
                exact text_to_speech_hit hl2

/-- Witness for C3: a first call on the empty cache synthesizes and caches
bytes; the identical call with an engine that now always fails still
returns those bytes from the cache. -/
theorem C3_witness :
    text_to_speech true (fun _ => (0 : Int)) (fun _ _ => some [7]) "v" [] "hi" none
      = ([("v:0", [7])], some [7]) ∧
    text_to_speech true (fun _ => (0 : Int)) (fun _ _ => none) "v" [("v:0", [7])] "hi" none
      = ([("v:0", [7])], some [7]) :=
  ⟨by decide,
   C3_cache_round_trip true (fun _ => (0 : Int)) (fun _ _ => some [7]) "v" [] "hi" none
     [("v:0", [7])] [7] (by decide) (fun _ _ => none)⟩

/-- C7: when the synthesis engine fails on a cache miss, the call returns
the explicit failure value `none` (no audio bytes) and leaves the cache
unchanged — the failure is never stored — so a subsequent call with the
same key still takes the miss path: its outcome is exactly whatever the
engine then returns. -/
theorem C7_synthesis_failure_not_cached (hash : String → Int)
    (gen : String → String → Option Audio) (dv : String) (cache : Cache)
    (t : String) (v : Option String)
    (hmiss : cacheLookup cache (cache_key hash (v.getD dv) t) = none)
    (hfail : gen t (v.getD dv) = none) :
    text_to_speech true hash gen dv cache t v = (cache, none) ∧
    ∀ gen2 : String → String → Option Audio,
      (text_to_speech true hash gen2 dv cache t v).2 = gen2 t (v.getD dv) := by
  refine ⟨text_to_speech_fail hmiss hfail, ?_⟩
  intro gen2
  cases hg2 : gen2 t (v.getD dv) with
  | none => rw [text_to_speech_fail hmiss hg2]
  | some a =>
      by_cases hlen : cache.length < 50
      · rw [text_to_speech_miss_insert hmiss hg2 hlen]
      · rw [text_to_speech_miss_evict hmiss hg2 (by omega)]

/-- Witness for C7: a failing engine on the empty cache returns `none`
and stores nothing. -/
theorem C7_witness :
    cacheLookup [] (cache_key (fun _ => (0 : Int)) ((none : Option String).getD "v") "hi")
      = none ∧
    text_to_speech true (fun _ => (0 : Int)) (fun _ _ => none) "v" [] "hi" none
      = ([], none) :=
  ⟨rfl,
   (C7_synthesis_failure_not_cached (fun _ => (0 : Int)) (fun _ _ => none) "v" [] "hi" none
      rfl rfl).1⟩
